import Mathlib

/-!
Verification of the constraint models in `logic_puzzle.py` and
`project_planning.py`.

Both scripts build a CP-SAT model (boolean decision variables plus linear /
boolean constraints) and hand it to an external solver.  The embedding below
reproduces the *model* each script builds — the decision variables, the exact
constraints added to the model, and the pure parts of the printing callbacks —
and proves properties of every assignment of the boolean variables that
satisfies those constraints.  The solver itself is external and out of scope;
a "solution" is modelled as any assignment satisfying all added constraints.
-/

set_option maxHeartbeats 4000000

namespace LogicPuzzle

/-!
## Logic puzzle (`logic_puzzle.py`)

Object domain `students = ['Carol', 'Elisa', 'Oliver', 'Lucas']` and the three
attribute domains are encoded as `Fin 4`, indexed in the list order of the
source.  `objects_attributes_predicates` creates a boolean variable for every
(student, attribute) pair of each predicate; a full assignment of those 48
variables is a value of type `Assignment`.
-/

def carol : Fin 4 := 0
def elisa : Fin 4 := 1
def oliver : Fin 4 := 2
def lucas : Fin 4 := 3

def usa : Fin 4 := 0
def canada : Fin 4 := 1
def australia : Fin 4 := 2
def southAfrica : Fin 4 := 3

def london : Fin 4 := 0
def oxford : Fin 4 := 1
def cambridge : Fin 4 := 2
def edinburgh : Fin 4 := 3

def history : Fin 4 := 0
def medicine : Fin 4 := 1
def law : Fin 4 := 2
def architecture : Fin 4 := 3

def students : List (Fin 4) := [carol, elisa, oliver, lucas]
def nationalities : List (Fin 4) := [usa, canada, australia, southAfrica]
def universities : List (Fin 4) := [london, oxford, cambridge, edinburgh]
def courses : List (Fin 4) := [history, medicine, law, architecture]

/-- A full assignment of the 48 boolean decision variables created by
`objects_attributes_predicates`: one boolean per (student, attribute) pair for
each of the three predicates `student_nationality`, `student_university`,
`student_course`. -/
@[ext]
structure Assignment where
  student_nationality : Fin 4 → Fin 4 → Bool
  student_university : Fin 4 → Fin 4 → Bool
  student_course : Fin 4 → Fin 4 → Bool

/-- `0/1` value of a boolean variable, as used in the linear sums of
`model.Add(sum([...]) == 1)`. -/
def b2n (b : Bool) : Nat := cond b 1 0

/-- Sum of the boolean variables `M s v` over a list of students/attributes. -/
def boolSum (l : List (Fin 4)) (f : Fin 4 → Bool) : Nat :=
  (l.map fun x => b2n (f x)).sum

/-- The explicit constraints of `add_explicit_constraints`, sentence by
sentence, evaluated on an assignment.  `AddBoolAnd(xs).OnlyEnforceIf(c)`
becomes `!c || and of xs`; `AddBoolOr` likewise. -/
def explicitB (a : Assignment) : Bool :=
  -- (1) One of them is going to London.
  (boolSum students (fun s => a.student_university s london) == 1) &&
  -- (2) Exactly one boy and one girl chose a university in a city with the
  -- same initial of their names.
  ((b2n (a.student_university carol cambridge) +
      b2n (a.student_university elisa edinburgh)) == 1) &&
  ((b2n (a.student_university oliver oxford) +
      b2n (a.student_university lucas london)) == 1) &&
  -- (3) A boy is from Australia, the other studies History.
  (a.student_course oliver history ||
    (a.student_nationality oliver australia && a.student_course lucas history)) &&
  (a.student_course lucas history ||
    (a.student_nationality lucas australia && a.student_course oliver history)) &&
  -- (4) A girl goes to Cambridge, the other studies Medicine.
  (a.student_course carol medicine ||
    (a.student_university carol cambridge && a.student_course elisa medicine)) &&
  (a.student_course elisa medicine ||
    (a.student_university elisa cambridge && a.student_course carol medicine)) &&
  -- (5) Oliver studies Law or is from USA; he is not from South Africa.
  (a.student_nationality oliver usa || a.student_course oliver law) &&
  (!(a.student_nationality oliver southAfrica)) &&
  -- (6) The student from Canada is a historian or will go to Oxford.
  (students.all fun s =>
    !(a.student_nationality s canada) ||
      (a.student_course s history || a.student_university s oxford)) &&
  -- (7) The student from South Africa is going to Edinburgh or will study Law.
  (students.all fun s =>
    !(a.student_nationality s southAfrica) ||
      (a.student_course s law || a.student_university s edinburgh))

/-- The implicit constraints of `add_implicit_constraints`: each attribute
value is picked by exactly one student (column sums, constraints (1)–(3)) and
each student picks exactly one value of each attribute (row sums, (4)). -/
def implicitB (a : Assignment) : Bool :=
  (nationalities.all fun n =>
    boolSum students (fun s => a.student_nationality s n) == 1) &&
  (universities.all fun u =>
    boolSum students (fun s => a.student_university s u) == 1) &&
  (courses.all fun c =>
    boolSum students (fun s => a.student_course s c) == 1) &&
  (students.all fun s =>
    (boolSum nationalities (fun n => a.student_nationality s n) == 1) &&
    (boolSum universities (fun u => a.student_university s u) == 1) &&
    (boolSum courses (fun c => a.student_course s c) == 1))

/-- All constraints the model receives before `SearchForAllSolutions`. -/
def allB (a : Assignment) : Bool := explicitB a && implicitB a

/-- An assignment satisfies the model iff every added constraint holds. -/
def Sat (a : Assignment) : Prop := allB a = true

/-- Builds the assignment in which each predicate matrix is the permutation
matrix of a given student → attribute function. -/
def mkA (fn fu fc : Fin 4 → Fin 4) : Assignment :=
  ⟨fun s v => fn s == v, fun s v => fu s == v, fun s v => fc s == v⟩

/-- Function `Fin 4 → Fin 4` read off from a list of four values. -/
def funOf (l : List (Fin 4)) : Fin 4 → Fin 4 := fun s => l.getD s 0

/-- Nationalities of Carol, Elisa, Oliver, Lucas in the unique solution:
South Africa, Canada, USA, Australia. -/
def solNatL : List (Fin 4) := [3, 1, 0, 2]

/-- Universities in the unique solution: Cambridge, Oxford, Edinburgh,
London. -/
def solUniL : List (Fin 4) := [2, 1, 3, 0]

/-- Courses in the unique solution: Law, Medicine, History, Architecture. -/
def solCrsL : List (Fin 4) := [2, 1, 0, 3]

/-- The unique satisfying assignment of the model. -/
def solA : Assignment := mkA (funOf solNatL) (funOf solUniL) (funOf solCrsL)

/-- All 24 permutations of the four attribute indices. -/
def perms24 : List (List (Fin 4)) :=
  [[0, 1, 2, 3], [0, 1, 3, 2], [0, 2, 1, 3], [0, 2, 3, 1], [0, 3, 1, 2],
   [0, 3, 2, 1], [1, 0, 2, 3], [1, 0, 3, 2], [1, 2, 0, 3], [1, 2, 3, 0],
   [1, 3, 0, 2], [1, 3, 2, 0], [2, 0, 1, 3], [2, 0, 3, 1], [2, 1, 0, 3],
   [2, 1, 3, 0], [2, 3, 0, 1], [2, 3, 1, 0], [3, 0, 1, 2], [3, 0, 2, 1],
   [3, 1, 0, 2], [3, 1, 2, 0], [3, 2, 0, 1], [3, 2, 1, 0]]

/-- Exhaustive check over all triples of permutation matrices: the only one
satisfying every constraint of the model is `solA`. -/
theorem key_uniqueness : ∀ l1 ∈ perms24, ∀ l2 ∈ perms24, ∀ l3 ∈ perms24,
    allB (mkA (funOf l1) (funOf l2) (funOf l3)) = true →
      l1 = solNatL ∧ l2 = solUniL ∧ l3 = solCrsL := by decide

/-- The attribute selected by a row of a predicate matrix (the unique true
entry, once the row sum is 1). -/
def rowVal (r : Fin 4 → Bool) : Fin 4 :=
  if r 0 then 0 else if r 1 then 1 else if r 2 then 2 else 3

/-- The four values of a student → attribute function, listed in order. -/
def listOf (f : Fin 4 → Fin 4) : List (Fin 4) := [f 0, f 1, f 2, f 3]

theorem row_exact : ∀ r : Fin 4 → Bool, boolSum students r = 1 →
    ∀ v, r v = (rowVal r == v) := by decide

theorem sum_one_exists_unique : ∀ r : Fin 4 → Bool, boolSum students r = 1 →
    ∃ i, r i = true ∧ ∀ j, r j = true → j = i := by decide

theorem col_mem : ∀ a b c d : Fin 4,
    (∀ v, boolSum students (fun s => funOf [a, b, c, d] s == v) = 1) →
      [a, b, c, d] ∈ perms24 := by decide

theorem funOf_listOf (f : Fin 4 → Fin 4) : funOf (listOf f) = f := by
  funext s
  fin_cases s <;> rfl

theorem col_mem_fun (f : Fin 4 → Fin 4)
    (h : ∀ v, boolSum students (fun s => f s == v) = 1) : listOf f ∈ perms24 := by
  have hh : ∀ v, boolSum students (fun s => funOf [f 0, f 1, f 2, f 3] s == v) = 1 := by
    intro v
    have he : funOf [f 0, f 1, f 2, f 3] = f := funOf_listOf f
    rw [he]
    exact h v
  exact col_mem (f 0) (f 1) (f 2) (f 3) hh

theorem mem_students : ∀ s : Fin 4, s ∈ students := by decide
theorem mem_nationalities : ∀ v : Fin 4, v ∈ nationalities := by decide
theorem mem_universities : ∀ v : Fin 4, v ∈ universities := by decide
theorem mem_courses : ∀ v : Fin 4, v ∈ courses := by decide

/-- Characterization of the model: an assignment satisfies all added
constraints iff it is the concrete assignment `solA`. -/
theorem sat_characterization (a : Assignment) : Sat a ↔ a = solA := by
  constructor
  · intro h
    have hsplit : explicitB a = true ∧ implicitB a = true := by
      rw [Sat, allB, Bool.and_eq_true] at h
      exact h
    obtain ⟨hexp, himp⟩ := hsplit
    rw [implicitB] at himp
    simp only [Bool.and_eq_true, List.all_eq_true, beq_iff_eq] at himp
    obtain ⟨⟨⟨hcolN, hcolU⟩, hcolC⟩, hrow⟩ := himp
    -- each row of each predicate matrix has exactly one true entry,
    -- so the matrices are the permutation matrices of their row functions
    have hN : ∀ s v, a.student_nationality s v =
        (rowVal (a.student_nationality s) == v) :=
      fun s v => row_exact _ (hrow s (mem_students s)).1.1 v
    have hU : ∀ s v, a.student_university s v =
        (rowVal (a.student_university s) == v) :=
      fun s v => row_exact _ (hrow s (mem_students s)).1.2 v
    have hC : ∀ s v, a.student_course s v =
        (rowVal (a.student_course s) == v) :=
      fun s v => row_exact _ (hrow s (mem_students s)).2 v
    have hA : a = mkA (fun s => rowVal (a.student_nationality s))
        (fun s => rowVal (a.student_university s))
        (fun s => rowVal (a.student_course s)) := by
      refine Assignment.ext ?_ ?_ ?_
      · funext s v
        exact hN s v
      · funext s v
        exact hU s v
      · funext s v
        exact hC s v
    -- the column constraints make the row functions permutations
    have lN : listOf (fun s => rowVal (a.student_nationality s)) ∈ perms24 := by
      refine col_mem_fun _ fun v => ?_
      have hc := hcolN v (mem_nationalities v)
      simp only [hN] at hc
      exact hc
    have lU : listOf (fun s => rowVal (a.student_university s)) ∈ perms24 := by
      refine col_mem_fun _ fun v => ?_
      have hc := hcolU v (mem_universities v)
      simp only [hU] at hc
      exact hc
    have lC : listOf (fun s => rowVal (a.student_course s)) ∈ perms24 := by
      refine col_mem_fun _ fun v => ?_
      have hc := hcolC v (mem_courses v)
      simp only [hC] at hc
      exact hc
    -- exhaustive comparison over permutations pins the assignment down
    have hsat2 : allB (mkA (funOf (listOf (fun s => rowVal (a.student_nationality s))))
        (funOf (listOf (fun s => rowVal (a.student_university s))))
        (funOf (listOf (fun s => rowVal (a.student_course s))))) = true := by
      rw [funOf_listOf, funOf_listOf, funOf_listOf, ← hA]
      exact h
    obtain ⟨e1, e2, e3⟩ := key_uniqueness _ lN _ lU _ lC hsat2
    have f1 : (fun s => rowVal (a.student_nationality s)) = funOf solNatL := by
      rw [← e1, funOf_listOf]
    have f2 : (fun s => rowVal (a.student_university s)) = funOf solUniL := by
      rw [← e2, funOf_listOf]
    have f3 : (fun s => rowVal (a.student_course s)) = funOf solCrsL := by
      rw [← e3, funOf_listOf]
    rw [hA, f1, f2, f3]
    rfl
  · intro h
    rw [h]
    show allB solA = true
    decide

/-- C1 (counterexample): the claim "there is exactly one satisfying
assignment, and in it the (Oliver, Australia) nationality variable and the
(Oliver, Law) course variable are true" is false for the model the code
builds: the assignment `solA` satisfies every added constraint while its
(Oliver, Australia) and (Oliver, Law) variables are false, so no satisfying
assignment of the model can be the claimed unique one. -/
theorem C1_claim_false : ¬ (∃ a : Assignment, Sat a ∧ (∀ b, Sat b → b = a) ∧
    a.student_nationality oliver australia = true ∧
    a.student_course oliver law = true) := by
  rintro ⟨a, hs, _, hA, _⟩
  have ha : a = solA := (sat_characterization a).mp hs
  rw [ha] at hA
  exact absurd hA (by decide)

/-- C1 (amended): there is exactly one full boolean assignment of the 48
decision variables satisfying every constraint added by
`add_explicit_constraints` and `add_implicit_constraints`, and in that unique
assignment the variables for (Oliver, USA) in the nationality predicate and
(Oliver, History) in the course predicate are true — the unique solution
assigns Oliver to the USA and History (and not to Australia and Law). -/
theorem C1_unique_solution : (∀ a : Assignment, Sat a ↔ a = solA) ∧
    solA.student_nationality oliver usa = true ∧
    solA.student_course oliver history = true :=
  ⟨sat_characterization, by decide, by decide⟩

/-- Witness: the amended C1 applied at the concrete assignment `solA`. -/
theorem C1_unique_solution_witness : Sat solA :=
  (C1_unique_solution.1 solA).mpr rfl

/-- C2: in every assignment satisfying the constraints added by
`add_implicit_constraints`, the true variables of each of the three predicate
matrices form a bijection: every student has exactly one attribute value set
true, and every attribute value is set true for exactly one student. -/
theorem C2_bijection (a : Assignment) (h : implicitB a = true) :
    ((∀ s, ∃ v, a.student_nationality s v = true ∧
        ∀ w, a.student_nationality s w = true → w = v) ∧
      (∀ v, ∃ s, a.student_nationality s v = true ∧
        ∀ t, a.student_nationality t v = true → t = s)) ∧
    ((∀ s, ∃ u, a.student_university s u = true ∧
        ∀ w, a.student_university s w = true → w = u) ∧
      (∀ u, ∃ s, a.student_university s u = true ∧
        ∀ t, a.student_university t u = true → t = s)) ∧
    ((∀ s, ∃ c, a.student_course s c = true ∧
        ∀ w, a.student_course s w = true → w = c) ∧
      (∀ c, ∃ s, a.student_course s c = true ∧
        ∀ t, a.student_course t c = true → t = s)) := by
  rw [implicitB] at h
  simp only [Bool.and_eq_true, List.all_eq_true, beq_iff_eq] at h
  obtain ⟨⟨⟨hcolN, hcolU⟩, hcolC⟩, hrow⟩ := h
  refine ⟨⟨fun s => ?_, fun v => ?_⟩, ⟨fun s => ?_, fun u => ?_⟩,
    ⟨fun s => ?_, fun c => ?_⟩⟩
  · exact sum_one_exists_unique _ (hrow s (mem_students s)).1.1
  · exact sum_one_exists_unique _ (hcolN v (mem_nationalities v))
  · exact sum_one_exists_unique _ (hrow s (mem_students s)).1.2
  · exact sum_one_exists_unique _ (hcolU u (mem_universities u))
  · exact sum_one_exists_unique _ (hrow s (mem_students s)).2
  · exact sum_one_exists_unique _ (hcolC c (mem_courses c))

/-- Witness: C2 applied to the concrete satisfying assignment `solA`. -/
theorem C2_bijection_witness : ∃ v, solA.student_nationality carol v = true ∧
    ∀ w, solA.student_nationality carol w = true → w = v :=
  (C2_bijection solA (by decide)).1.1 carol

/-!
### The solution-printer scan (`SolutionPrinter.OnSolutionCallback`)

For each student the callback runs, for each predicate,
`for x in domain: if self.Value(var[student][x]): break` and then prints the
loop variable `x`.  `pyForBreak` is that loop: it returns the value the loop
variable holds after the loop (`none` only for an empty domain). -/
def pyForBreak {α : Type} : List α → (α → Bool) → Option α
  | [], _ => none
  | x :: xs, v =>
    if v x then some x
    else
      match pyForBreak xs v with
      | some y => some y
      | none => some x

/-- Attribute domain of the nationality predicate, in source order. -/
def nationalityNames : List String := ["USA", "Canada", "Australia", "South Africa"]

/-- Attribute domain of the university predicate, in source order. -/
def universityNames : List String := ["London", "Oxford", "Cambridge", "Edinburgh"]

/-- Attribute domain of the course predicate, in source order. -/
def courseNames : List String := ["History", "Medicine", "Law", "Architecture"]

theorem pyForBreak_some {α : Type} (x : α) (d : List α) (v : α → Bool) :
    ∃ w, pyForBreak (x :: d) v = some w := by
  by_cases hv : v x = true
  · refine ⟨x, ?_⟩
    unfold pyForBreak
    rw [if_pos hv]
  · cases hd : pyForBreak d v with
    | none =>
      refine ⟨x, ?_⟩
      unfold pyForBreak
      rw [if_neg hv, hd]
    | some w =>
      refine ⟨w, ?_⟩
      unfold pyForBreak
      rw [if_neg hv, hd]

theorem pyForBreak_find {α : Type} (d : List α) (v : α → Bool) (x : α)
    (h : d.find? v = some x) : pyForBreak d v = some x := by
  induction d with
  | nil => simp at h
  | cons y ys ih =>
    by_cases hv : v y = true
    · rw [List.find?_cons_of_pos _ hv] at h
      unfold pyForBreak
      rw [if_pos hv]
      exact h
    · rw [List.find?_cons_of_neg _ hv] at h
      have ht := ih h
      unfold pyForBreak
      rw [if_neg hv, ht]

theorem pyForBreak_no_match {α : Type} (d : List α) (v : α → Bool)
    (h : d.find? v = none) : pyForBreak d v = d.getLast? := by
  induction d with
  | nil => rfl
  | cons y ys ih =>
    by_cases hv : v y = true
    · rw [List.find?_cons_of_pos _ hv] at h
      exact absurd h (by simp)
    · rw [List.find?_cons_of_neg _ hv] at h
      cases ys with
      | nil => simp [pyForBreak, hv]
      | cons z zs =>
        have htail := ih h
        obtain ⟨w, hw⟩ := pyForBreak_some z zs v
        have hgl : (z :: zs).getLast? = some w := by rw [← htail, hw]
        show pyForBreak (y :: z :: zs) v = (y :: z :: zs).getLast?
        rw [List.getLast?_cons_cons, hgl]
        unfold pyForBreak
        rw [if_neg hv, hw]

/-- C10: for each predicate of the logic puzzle, the callback's scan returns
the first attribute value in domain order whose variable is true under the
current assignment, and when no variable of that predicate is true for the
student it raises no error and yields the last attribute value of the domain
("South Africa", "Edinburgh", "Architecture" respectively) — the loop
variable left over from the exhausted for-loop. -/
theorem C10_callback_scan (vN vU vC : String → Bool) :
    (∀ x, nationalityNames.find? vN = some x →
      pyForBreak nationalityNames vN = some x) ∧
    (nationalityNames.find? vN = none →
      pyForBreak nationalityNames vN = some "South Africa") ∧
    (∀ x, universityNames.find? vU = some x →
      pyForBreak universityNames vU = some x) ∧
    (universityNames.find? vU = none →
      pyForBreak universityNames vU = some "Edinburgh") ∧
    (∀ x, courseNames.find? vC = some x →
      pyForBreak courseNames vC = some x) ∧
    (courseNames.find? vC = none →
      pyForBreak courseNames vC = some "Architecture") := by
  refine ⟨fun x h => pyForBreak_find _ _ _ h, fun h => ?_,
    fun x h => pyForBreak_find _ _ _ h, fun h => ?_,
    fun x h => pyForBreak_find _ _ _ h, fun h => ?_⟩
  · rw [pyForBreak_no_match _ _ h]
    rfl
  · rw [pyForBreak_no_match _ _ h]
    rfl
  · rw [pyForBreak_no_match _ _ h]
    rfl

/-- Witness: C10 applied with all-false valuations — every scan silently
yields the last domain value. -/
theorem C10_callback_scan_witness :
    pyForBreak nationalityNames (fun _ => false) = some "South Africa" ∧
    pyForBreak universityNames (fun _ => false) = some "Edinburgh" ∧
    pyForBreak courseNames (fun _ => false) = some "Architecture" := by
  refine ⟨?_, ?_, ?_⟩
  · exact (C10_callback_scan (fun _ => false) (fun _ => false)
      (fun _ => false)).2.1 rfl
  · exact (C10_callback_scan (fun _ => false) (fun _ => false)
      (fun _ => false)).2.2.2.1 rfl
  · exact (C10_callback_scan (fun _ => false) (fun _ => false)
      (fun _ => false)).2.2.2.2.2 rfl

end LogicPuzzle

namespace ProjectPlanning

/-!
## Staffing pipeline (`project_planning.py`)

`import_data` reads `data/data.xlsx` (sheets Projects, Quotes, Dependencies,
Value) and builds the stacked `project_plan` DataFrame; the spreadsheet
contents are abstract here (`Tables`), the derivation of `project_plan` and
the constraints added on top of it are transcribed from the source.  Quotes
and values are the integers the model consumes (`astype(int)` in the
source). -/

/-- One row of the stacked `project_plan` DataFrame built by `import_data`:
a valid (Contractor, Job, Project, Month) combination together with the
contractor's quote for the job. -/
structure Row where
  contractor : Nat
  job : Nat
  project : Nat
  month : Nat
  quote : Int
deriving DecidableEq

/-- A key of the `var_hiring` dictionary: (Contractor, Job, Project, Month). -/
abbrev Key := Nat × Nat × Nat × Nat

/-- The `var_hiring` key of a `project_plan` row
(`tuple(project_plan.iloc[row][:-1].astype(int))`). -/
def keyOf (r : Row) : Key := (r.contractor, r.job, r.project, r.month)

/-- The spreadsheet contents as read by `import_data`: `projects` (per
project and month, the job required that month, if any), `quotes` (per
contractor and job column, the quote when the contractor qualifies),
`jobNames` (the column labels of the Quotes sheet), `dependencies` (per
project row of the Dependencies sheet, which project columns are non-null)
and `value` (column 0 of the Value sheet). -/
structure Tables where
  projects : List (List (Option String))
  quotes : List (List (Option Int))
  jobNames : List String
  dependencies : List (List Bool)
  value : List Int

/-- Indices of the jobs a contractor's row qualifies for
(`enumerate(quotes.iloc[c].notnull())`). -/
def qualifiedJobs (qrow : List (Option Int)) : List Nat :=
  (List.range qrow.length).filter fun j => (qrow.getD j none).isSome

/-- Indices of the months in which a project row requires the given job
(`enumerate(projects.iloc[p] == quotes.iloc[c].index[j])`; a missing cell
compares unequal, as NaN does in pandas). -/
def runningMonths (prow : List (Option String)) (jobName : String) : List Nat :=
  (List.range prow.length).filter fun m => (prow.getD m none) == some jobName

/-- The stacked `project_plan` DataFrame: one row per contractor, qualified
job, project and month in which that job is required by that project. -/
def projectPlan (t : Tables) : List Row :=
  (List.range t.quotes.length).flatMap fun c =>
    (qualifiedJobs (t.quotes.getD c [])).flatMap fun j =>
      (List.range t.projects.length).flatMap fun p =>
        (runningMonths (t.projects.getD p []) (t.jobNames.getD j "")).map fun m =>
          ⟨c, j, p, m, ((t.quotes.getD c []).getD j none).getD 0⟩

/-- The keys of the `var_hiring` dictionary built by
`identify_and_create_variables`: one per row of `project_plan`. -/
def hiringKeys (t : Tables) : List Key := (projectPlan t).map keyOf

theorem mem_projectPlan (t : Tables) (r : Row) :
    r ∈ projectPlan t ↔ r.contractor < t.quotes.length ∧
      r.job ∈ qualifiedJobs (t.quotes.getD r.contractor []) ∧
      r.project < t.projects.length ∧
      r.month ∈ runningMonths (t.projects.getD r.project [])
        (t.jobNames.getD r.job "") ∧
      r.quote = ((t.quotes.getD r.contractor []).getD r.job none).getD 0 := by
  obtain ⟨c, j, p, m, q⟩ := r
  simp only [projectPlan, List.mem_flatMap, List.mem_map, List.mem_range]
  constructor
  · rintro ⟨c', hc, j', hj, p', hp, m', hm, heq⟩
    cases heq
    exact ⟨hc, hj, hp, hm, rfl⟩
  · rintro ⟨hc, hj, hp, hm, hq⟩
    exact ⟨c, hc, j, hj, p, hp, m, hm, by rw [hq]⟩

/-- C3 (amended): `identify_and_create_variables` creates one `var_hiring`
key per row of `project_plan` — a key (c, j, p, m) exists iff contractor c
exists, c qualifies for job j, project p exists, and job j's name is required
by project p in month m.  It does not create a key for every
(contractor × job × project × month) combination. -/
theorem C3_keys_characterization (t : Tables) (k : Key) :
    k ∈ hiringKeys t ↔ ∃ c j p m, k = (c, j, p, m) ∧ c < t.quotes.length ∧
      j ∈ qualifiedJobs (t.quotes.getD c []) ∧ p < t.projects.length ∧
      m ∈ runningMonths (t.projects.getD p []) (t.jobNames.getD j "") := by
  simp only [hiringKeys, List.mem_map]
  constructor
  · rintro ⟨r, hr, rfl⟩
    rw [mem_projectPlan] at hr
    exact ⟨r.contractor, r.job, r.project, r.month, rfl, hr.1, hr.2.1,
      hr.2.2.1, hr.2.2.2.1⟩
  · rintro ⟨c, j, p, m, rfl, hc, hj, hp, hm⟩
    refine ⟨⟨c, j, p, m, ((t.quotes.getD c []).getD j none).getD 0⟩, ?_, rfl⟩
    rw [mem_projectPlan]
    exact ⟨hc, hj, hp, hm, rfl⟩

/-- Concrete tables refuting C3 as stated: one contractor, two job columns
("A", "B"), the contractor only qualified for job 0, one project needing job
"A" in its single month. -/
def tC3 : Tables := ⟨[[some "A"]], [[some 10, none]], ["A", "B"], [], [5]⟩

/-- C3 (counterexample): the claim that every
(contractor × job × project × month) combination gets a `var_hiring` key is
false: on `tC3` the combination (0, 1, 0, 0) — contractor 0, job 1,
project 0, month 0 — is in range in every coordinate but has no key, because
contractor 0 is not qualified for job 1. -/
theorem C3_claim_false : ¬ (∀ c j p m, c < tC3.quotes.length →
    j < tC3.jobNames.length → p < tC3.projects.length →
    m < (tC3.projects.getD 0 []).length → (c, j, p, m) ∈ hiringKeys tC3) := by
  intro h
  have hk := h 0 1 0 0 (by decide) (by decide) (by decide) (by decide)
  exact absurd hk (by decide)

/-- Witness: the amended C3 applied at the concrete key (0, 0, 0, 0) of
`tC3`. -/
theorem C3_keys_witness : (0, 0, 0, 0) ∈ hiringKeys tC3 :=
  (C3_keys_characterization tC3 (0, 0, 0, 0)).mpr
    ⟨0, 0, 0, 0, rfl, by decide, by decide, by decide, by decide⟩

/-- An assignment of the decision variables created by
`identify_and_create_variables`: `proj p` is `var_projects[p]`, `hire k` is
`var_hiring[k]`. -/
structure PAssign where
  proj : Nat → Bool
  hire : Key → Bool

/-- `0/1` integer value of a boolean variable in the linear expressions. -/
def b2i (b : Bool) : Int := cond b 1 0

/-- Sum of the `var_hiring` variables of a list of `project_plan` rows, as in
`sum([var_hiring[...] for i in range(len(query))])`. -/
def hireSum (rows : List Row) (h : PAssign) : Nat :=
  (rows.map fun r => cond (h.hire (keyOf r)) 1 0).sum

/-- The rows of a contractor in a month
(`project_plan[(Contractor == c) & (Month == m)]`). -/
def query1 (plan : List Row) (c m : Nat) : List Row :=
  plan.filter fun r => r.contractor == c && r.month == m

/-- The constraints added in part C.1 of `define_and_implement_constraints`:
for every contractor and every month appearing among the contractor's rows,
IF more than one row matches, the sum of the matching `var_hiring` variables
is at most 1.  No constraint is added when at most one row matches. -/
def c1Sat (plan : List Row) (nContractors : Nat) (h : PAssign) : Prop :=
  ∀ c m, c < nContractors → (∃ r ∈ plan, r.contractor = c ∧ r.month = m) →
    1 < (query1 plan c m).length → hireSum (query1 plan c m) h ≤ 1

/-- C8: in every assignment satisfying the part C.1 constraints, a contractor
never works on two projects simultaneously: for every contractor c and month
m the sum of the `var_hiring` variables whose key has contractor c and month
m is at most 1 — including the 0- and 1-row cases for which the code adds no
constraint, where a sum of at most one boolean variable is at most 1
anyway. -/
theorem C8_one_project_per_month (plan : List Row) (nC : Nat) (h : PAssign)
    (hc : ∀ r ∈ plan, r.contractor < nC) (hs : c1Sat plan nC h) :
    ∀ c m, hireSum (query1 plan c m) h ≤ 1 := by
  intro c m
  cases hq : query1 plan c m with
  | nil => simp [hireSum, hq]
  | cons r rs =>
    cases rs with
    | nil =>
      cases hb : h.hire (keyOf r) <;> simp [hireSum, hb]
    | cons r2 rs2 =>
      have hr : r ∈ query1 plan c m := by
        rw [hq]
        exact List.mem_cons_self r (r2 :: rs2)
      obtain ⟨hplan, hcond⟩ := List.mem_filter.mp hr
      simp only [Bool.and_eq_true, beq_iff_eq] at hcond
      have hlen : 1 < (query1 plan c m).length := by
        rw [hq]
        simp only [List.length_cons]
        omega
      have hle := hs c m (hcond.1 ▸ hc r hplan) ⟨r, hplan, hcond.1, hcond.2⟩ hlen
      rw [hq] at hle
      exact hle

/-- Witness: C8 applied at a concrete (empty) plan and assignment. -/
theorem C8_witness :
    hireSum (query1 [] 0 0) ⟨fun _ => false, fun _ => false⟩ ≤ 1 :=
  C8_one_project_per_month [] 0 ⟨fun _ => false, fun _ => false⟩
    (fun r hr => absurd hr (List.not_mem_nil r))
    (fun c _ hc => absurd hc (Nat.not_lt_zero c)) 0 0

/-- The rows of a project (`project_plan[Project == p]`). -/
def query3 (plan : List Row) (p : Nat) : List Row :=
  plan.filter fun r => r.project == p

/-- The constraints added in part C.3 of `define_and_implement_constraints`:
for every project p, if p is not taken on then the sum of all `var_hiring`
variables of rows with project p is 0. -/
def c3Sat (plan : List Row) (nProjects : Nat) (h : PAssign) : Prop :=
  ∀ p, p < nProjects → h.proj p = false → hireSum (query3 plan p) h = 0

/-- C9: in every assignment satisfying the part C.3 constraints, if a project
is not taken on then every `var_hiring` variable whose key has that project
is false — no contractor is hired for any job or month of a project that is
not taken on. -/
theorem C9_not_taken_no_hiring (plan : List Row) (nP : Nat) (h : PAssign)
    (hp : ∀ r ∈ plan, r.project < nP) (hs : c3Sat plan nP h) :
    ∀ r ∈ plan, h.proj r.project = false → h.hire (keyOf r) = false := by
  intro r hr hpr
  have hq : r ∈ query3 plan r.project := List.mem_filter.mpr ⟨hr, by simp⟩
  have hsum := hs r.project (hp r hr) hpr
  rw [hireSum] at hsum
  have hall := (List.sum_eq_zero_iff).mp hsum
  have hx := hall _ (List.mem_map_of_mem _ hq)
  cases hb : h.hire (keyOf r)
  · rfl
  · rw [hb] at hx
    simp at hx

/-- Witness: C9 applied at a concrete one-row plan and all-false
assignment. -/
theorem C9_witness :
    PAssign.hire ⟨fun _ => false, fun _ => false⟩ (keyOf ⟨0, 0, 0, 0, 5⟩) = false :=
  C9_not_taken_no_hiring [⟨0, 0, 0, 0, 5⟩] 1 ⟨fun _ => false, fun _ => false⟩
    (by intro r hr; simp at hr; rw [hr]; exact Nat.zero_lt_one)
    (by intro p _ _; simp [hireSum]) ⟨0, 0, 0, 0, 5⟩
    (List.mem_singleton.mpr rfl) rfl

/-- Whether the Dependencies sheet has a (non-null) entry making project p
depend directly on project d. -/
def edge (deps : List (List Bool)) (p d : Nat) : Bool :=
  (deps.getD p []).getD d false

/-- The constraints added in part C.4 of `define_and_implement_constraints`:
one implication per direct dependency edge
(`AddBoolAnd([var_projects[d]]).OnlyEnforceIf(var_projects[p])`). -/
def c4Sat (deps : List (List Bool)) (h : PAssign) : Prop :=
  ∀ p d, edge deps p d = true → h.proj p = true → h.proj d = true

/-- Transitive reachability along entries of the Dependencies sheet. -/
def Depends (deps : List (List Bool)) : Nat → Nat → Prop :=
  Relation.TransGen fun p d => edge deps p d = true

/-- C4: dependency closure holds in every assignment satisfying the part C.4
constraints: if project p is taken on then every project reachable from p by
transitively following Dependencies entries is taken on too, even though the
code only adds one implication per direct edge. -/
theorem C4_dependency_closure (deps : List (List Bool)) (h : PAssign)
    (hs : c4Sat deps h) :
    ∀ p q, h.proj p = true → Depends deps p q → h.proj q = true := by
  intro p q hp hr
  induction hr with
  | single hd => exact hs _ _ hd hp
  | tail _ hd ih => exact hs _ _ hd ih

/-- Witness: C4 applied at the concrete dependency sheet [[false, true]]
(project 0 depends on project 1) and the all-true assignment. -/
theorem C4_witness : PAssign.proj ⟨fun _ => true, fun _ => true⟩ 1 = true :=
  C4_dependency_closure [[false, true]] ⟨fun _ => true, fun _ => true⟩
    (fun _ _ _ _ => rfl) 0 1 rfl (Relation.TransGen.single (by decide))

/-- Revenue as summed in part C.5:
`sum([value.iloc[p][0].astype(int) * var_projects[p] for p in range(len(value))])`. -/
def revenue (value : List Int) (h : PAssign) : Int :=
  ((List.range value.length).map fun p => value.getD p 0 * b2i (h.proj p)).sum

/-- Costs as summed in part C.5: `sum([var_hiring[key] *
project_plan.iloc[c][-1].astype(int) for c in range(len(project_plan))])`. -/
def costs (plan : List Row) (h : PAssign) : Int :=
  (plan.map fun r => b2i (h.hire (keyOf r)) * r.quote).sum

/-- The constraint added in part C.5:
`model.Add((revenue - costs) >= 2500)`. -/
def c5Sat (value : List Int) (plan : List Row) (h : PAssign) : Prop :=
  revenue value h - costs plan h ≥ 2500

/-- Revenue as recomputed in `SolutionPrinter.OnSolutionCallback` (the same
formula, with `self.Value(...)` in place of each variable). -/
def callbackRevenue (value : List Int) (h : PAssign) : Int :=
  ((List.range value.length).map fun p => value.getD p 0 * b2i (h.proj p)).sum

/-- Costs as recomputed in `SolutionPrinter.OnSolutionCallback`. -/
def callbackCosts (plan : List Row) (h : PAssign) : Int :=
  (plan.map fun r => b2i (h.hire (keyOf r)) * r.quote).sum

/-- C5: in every assignment satisfying the part C.5 constraint the profit
margin (revenue minus costs) is at least 2500; the callback recomputes
revenue and costs with the same formulas, so the profit margin it prints for
every enumerated solution is also at least 2500. -/
theorem C5_profit_threshold (value : List Int) (plan : List Row) (h : PAssign)
    (hs : c5Sat value plan h) :
    revenue value h - costs plan h ≥ 2500 ∧
    callbackRevenue value h = revenue value h ∧
    callbackCosts plan h = costs plan h ∧
    callbackRevenue value h - callbackCosts plan h ≥ 2500 :=
  ⟨hs, rfl, rfl, hs⟩

/-- Witness: C5 applied at a concrete instance (one project of value 2500,
taken on, no hiring rows). -/
theorem C5_witness :
    revenue [2500] ⟨fun _ => true, fun _ => true⟩ -
      costs [] ⟨fun _ => true, fun _ => true⟩ ≥ 2500 :=
  (C5_profit_threshold [2500] [] ⟨fun _ => true, fun _ => true⟩
    (show revenue [2500] ⟨fun _ => true, fun _ => true⟩ -
      costs [] ⟨fun _ => true, fun _ => true⟩ ≥ 2500 by decide)).1

end ProjectPlanning

namespace Output

/-!
## Printed output of both `solve` methods

Both scripts print `Searching for all solutions...`, then one block per
solution found (emitted by the respective `OnSolutionCallback`, which first
increments the `n_solutions` counter and heads the block with it), then three
summary lines.  The body of a block (DataFrame/report rendering) is abstract
here; the header, the `'*' * 20` separator, the closing `'=' * k` line, the
counter and the summary lines are transcribed. -/

/-- The `'*' * 20` separator line printed after each block header. -/
def starSep : String := String.mk (List.replicate 20 '*')

/-- The lines one callback invocation prints: the header with the current
solution number, the `'*' * 20` separator, the solution body, and the closing
line (`'=' * 48` in `logic_puzzle.py`, `'=' * 45` in `project_planning.py`). -/
def callbackBlock (closing : String) (n : Nat) (body : List String) : List String :=
  ("Feasible solution #" ++ toString n) :: starSep :: (body ++ [closing])

/-- All lines printed by the successive callback invocations together with
the final value of the `n_solutions` counter, starting from counter value
`n`: each invocation increments the counter and prints its block. -/
def printerRun (closing : String) : List (List String) → Nat → List String × Nat
  | [], n => ([], n)
  | b :: bs, n =>
    let rest := printerRun closing bs (n + 1)
    (callbackBlock closing (n + 1) b ++ rest.1, rest.2)

/-- Rounding to 2 decimal places, modelling `round(wall_time, 2)`. -/
def round2 (q : ℚ) : ℚ := ((round (q * 100) : ℤ) : ℚ) / 100

/-- The first summary line, with the solver's status name verbatim. -/
def statusLine (statusName : String) : String :=
  "Optimisation finished, solver status: " ++ statusName ++ "."

/-- The second summary line: the wall time rounded to 2 decimal places. -/
def timeLine (t : ℚ) : String :=
  "Total time elapsed (seconds): " ++ toString (round2 t)

/-- The third summary line: the printer's final solution count. -/
def countLine (n : Nat) : String :=
  "Total number of solutions found: " ++ toString n

/-- Everything `solve` prints: the search banner, the callback blocks, then
the three summary lines (status, wall time, `sol_printer.SolutionCount()`). -/
def solveOutput (closing : String) (bodies : List (List String))
    (statusName : String) (t : ℚ) : List String :=
  "Searching for all solutions..." ::
    ((printerRun closing bodies 0).1 ++
      [statusLine statusName, timeLine t,
        countLine (printerRun closing bodies 0).2])

/-- Stated from the claim's words: one block per enumerated solution, the
i-th headed by solution number i + 1 (consecutive numbering starting at 1). -/
def specBlocks (closing : String) (bodies : List (List String)) : List String :=
  (List.range bodies.length).flatMap fun i =>
    callbackBlock closing (i + 1) (bodies.getD i [])

/-- The closing separator of `logic_puzzle.py` blocks (`'=' * 48`). -/
def logicClosing : String := String.mk (List.replicate 48 '=')

/-- The closing separator of `project_planning.py` blocks (`'=' * 45`). -/
def planningClosing : String := String.mk (List.replicate 45 '=')

theorem printerRun_count (closing : String) (bodies : List (List String)) :
    ∀ n, (printerRun closing bodies n).2 = n + bodies.length := by
  induction bodies with
  | nil => intro n; simp [printerRun]
  | cons b bs ih =>
    intro n
    rw [printerRun]
    simp only [ih, List.length_cons]
    omega

theorem printerRun_out (closing : String) (bodies : List (List String)) :
    ∀ n, (printerRun closing bodies n).1 =
      (List.range bodies.length).flatMap fun i =>
        callbackBlock closing (n + i + 1) (bodies.getD i []) := by
  induction bodies with
  | nil => intro n; simp [printerRun]
  | cons b bs ih =>
    intro n
    rw [printerRun]
    simp only [ih]
    rw [List.length_cons, List.range_succ_eq_map]
    rw [List.flatMap_cons]
    have hshift : (List.map Nat.succ (List.range bs.length)).flatMap
        (fun i => callbackBlock closing (n + i + 1) ((b :: bs).getD i [])) =
        (List.range bs.length).flatMap
          (fun i => callbackBlock closing (n + 1 + i + 1) (bs.getD i [])) := by
      rw [List.flatMap_map]
      apply List.flatMap_congr
      intro i _
      have : n + (i + 1) + 1 = n + 1 + i + 1 := by omega
      simp [Function.comp, Nat.succ_eq_add_one, this]
    rw [hshift]
    simp

/-- C6: in both scripts (any closing separator, in particular `logicClosing`
and `planningClosing`), `solve` prints one block per enumerated solution,
each headed by a consecutive solution number starting at 1, and after the
search exactly three summary lines: the solver status name, the wall time
rounded to 2 decimal places, and the total number of solutions found — which
equals the number of callback invocations (the final counter value). -/
theorem C6_solve_output (closing : String) (bodies : List (List String))
    (statusName : String) (t : ℚ) :
    solveOutput closing bodies statusName t =
      "Searching for all solutions..." ::
        (specBlocks closing bodies ++
          [statusLine statusName, timeLine t, countLine bodies.length]) ∧
    (printerRun closing bodies 0).2 = bodies.length := by
  constructor
  · rw [solveOutput, printerRun_out, printerRun_count]
    simp [specBlocks]
  · rw [printerRun_count]
    omega

end Output

namespace PipelineErrors

/-!
## Error propagation (`import_data` and `solve`)

Neither script contains any error handling; `import_data` starts by indexing
the sheet dictionary returned by `pd.read_excel`, and a missing sheet raises
an uncaught `KeyError` that propagates out of `import_data` and `solve`.
Fallible dictionary indexing is embedded as `Except`. -/

/-- The sheet lookups at the start of `import_data`
(`data['Projects']`, `data['Quotes']`, `data['Dependencies']`,
`data['Value']`); a missing sheet is an error nothing catches. -/
def importDataE {α : Type} (data : List (String × α)) :
    Except String (α × α × α × α) :=
  match data.lookup "Projects" with
  | none => Except.error "KeyError: Projects"
  | some projects =>
    match data.lookup "Quotes" with
    | none => Except.error "KeyError: Quotes"
    | some quotes =>
      match data.lookup "Dependencies" with
      | none => Except.error "KeyError: Dependencies"
      | some dependencies =>
        match data.lookup "Value" with
        | none => Except.error "KeyError: Value"
        | some value => Except.ok (projects, quotes, dependencies, value)

/-- `solve`, step 1 onwards: the rest of the pipeline (variables,
constraints, solver call, printing) runs only on successfully imported data;
there is no `try/except` anywhere, so an import error propagates. -/
def solveRun {α β : Type} (data : List (String × α))
    (rest : α × α × α × α → Except String β) : Except String β :=
  importDataE data >>= rest

/-- C7: no error handling is implemented: `solve` prints the solver's status
name verbatim whatever it is (the status line embeds the given name
unchanged), and an error arising from malformed spreadsheet data propagates
uncaught out of `import_data` through `solve` — whatever the rest of the
pipeline would do.  (That the source contains no `try/except` and no input
validation is a syntactic fact, mirrored here by the absence of any recovery
branch in the embedded pipeline.) -/
theorem C7_no_error_handling :
    (∀ s : String, Output.statusLine s =
      "Optimisation finished, solver status: " ++ s ++ ".") ∧
    (∀ (α β : Type) (data : List (String × α))
      (rest : α × α × α × α → Except String β) (e : String),
      importDataE data = Except.error e → solveRun data rest = Except.error e) ∧
    importDataE (α := Nat) [] = Except.error "KeyError: Projects" := by
  refine ⟨fun s => rfl, ?_, rfl⟩
  intro α β data rest e he
  rw [solveRun, he]
  rfl

/-- Witness: C7 applied at the concrete empty sheet dictionary — the
`KeyError` for the Projects sheet propagates out of the whole pipeline. -/
theorem C7_witness :
    solveRun (α := Nat) (β := Nat) [] (fun _ => Except.ok 0) =
      Except.error "KeyError: Projects" :=
  C7_no_error_handling.2.1 Nat Nat [] (fun _ => Except.ok 0)
    "KeyError: Projects" rfl

end PipelineErrors
